import Mathlib

/-!
Verification development for the voice-agent turn pipeline.

This file shallowly embeds the parts of the code base that the checked
properties talk about:

* `voice/service/turn_manager.py` : `TurnSession` (state, `append_chunk`,
  `convert_to_wav_memory`, `advance_segment`) and `TurnManager.push_chunk`;
* `app/api/webrtc.py` : the signaling-loop policy around `push_chunk` and the
  reply pipeline `_handle_scripted_chat_response`;
* `app/script.py` : `sanitize_reply` and `parse_api_call_tag`;
* `app/rag.py` : `search_with_threshold`;
* `app/services/together_client.py` : `call_llm`.

Machine reals (Python floats used for timestamps and durations) are modelled
as rationals; byte strings as lists of naturals; the external collaborators
(ffmpeg, soundfile, the VAD model, the ASR model, json.loads, the wall clock,
thread-lock contention) are oracle parameters, so every theorem quantifies
over their behaviour.
-/

/-- One chat message, as stored in `conversation_history`
(`turn_manager.py` line 32): a role plus a content string. -/
structure ChatMsg where
  role : String
  content : String
deriving DecidableEq

/-- A byte of a compressed-audio or WAV buffer. -/
abbrev Byte := Nat

/-- The mutable per-session state of `TurnSession.__init__`
(`turn_manager.py` lines 13-39).  File paths, the ffmpeg binary path and the
lock object itself are omitted: no checked claim mentions them.  `wav_audio`
(a numpy sample array in the source) is modelled by its sample count at
16 kHz, which is all `push_chunk` reads from it (`len(s.wav_audio)`). -/
structure TurnSession where
  segment_index : Nat
  finalized : Bool
  transcript : Option String
  chunk_count : Nat
  last_duration : ℚ
  last_conversion_time : ℚ
  segment_start_time : ℚ
  processing_active : Bool
  conversation_history : List ChatMsg
  turn_number : Nat
  webm_buffer : List Byte
  webm_header : Option (List Byte)
  wav_bytes : Option (List Byte)
  wav_audio : Option Nat
deriving DecidableEq

/-- The fresh session built by `TurnSession.__init__` at wall-clock time
`now` (`turn_manager.py` lines 13-39). -/
def initSession (now : ℚ) : TurnSession :=
  { segment_index := 0
    finalized := false
    transcript := none
    chunk_count := 0
    last_duration := 0
    last_conversion_time := 0
    segment_start_time := now
    processing_active := false
    conversation_history := []
    turn_number := 0
    webm_buffer := []
    webm_header := none
    wav_bytes := none
    wav_audio := none }

/-- Models `TurnSession.append_chunk` (`turn_manager.py` lines 41-74): capture the
container header from the first chunk when it starts with the EBML magic
bytes 0x1A 0x45 0xDF 0xA3 (keeping at most 8192 bytes), extend the in-memory
buffer, bump `chunk_count`.  The best-effort archival file write has no
effect on the session state and is not modelled. -/
def append_chunk (s : TurnSession) (data : List Byte) : TurnSession :=
  let s1 :=
    if s.webm_header = none ∧ 4 ≤ data.length ∧
        data.take 4 = [0x1A, 0x45, 0xDF, 0xA3] then
      { s with webm_header := some (data.take 8192) }
    else s
  { s1 with webm_buffer := s1.webm_buffer ++ data
            chunk_count := s1.chunk_count + 1 }

/-- Outcome of one external ffmpeg invocation (`subprocess.run` in
`turn_manager.py` lines 123-128): the produced stdout bytes, a nonzero exit
code, or the 5 s timeout (`subprocess.TimeoutExpired`). -/
inductive EncResult
  | output (out : List Byte)
  | exitNonzero
  | timeout
deriving DecidableEq

/-- Oracles consumed by one `convert_to_wav_memory` call: the wall clock,
whether the non-blocking `conversion_lock.acquire` fails, what ffmpeg does
with a given stdin payload, and how soundfile decodes the produced WAV
(`some n` = an `n`-sample array, `none` = the decode raised and was
swallowed, `turn_manager.py` lines 156-177). -/
structure ConvertEnv where
  now : ℚ
  lockHeld : Bool
  encoder : List Byte → EncResult
  audioLoad : List Byte → Option Nat

/-- The stdin payload handed to ffmpeg (`turn_manager.py` lines 100-108): if
a header was stored and the buffer does not already begin with it (shorter
than the header, or differing on the leading bytes), the header is
prepended. -/
def ffmpeg_input (s : TurnSession) : List Byte :=
  match s.webm_header with
  | none => s.webm_buffer
  | some h =>
      if s.webm_buffer.length < h.length ∨ s.webm_buffer.take h.length ≠ h then
        h ++ s.webm_buffer
      else s.webm_buffer

/-- Models `TurnSession.convert_to_wav_memory` (`turn_manager.py` lines 76-189).
Returns the boolean the source returns together with the updated session.
Branch order follows the source: lock try-acquire, 300 ms throttle, 500-byte
minimum, ffmpeg (nonzero exit and timeout both return failure), empty-stdout
check, then `wav_bytes` is stored, the soundfile decode updates `wav_audio`
when it succeeds (on exception the old array is kept and the call still
succeeds), and `last_conversion_time` is set. -/
def convert_to_wav_memory (env : ConvertEnv) (s : TurnSession) :
    Bool × TurnSession :=
  if env.lockHeld then (false, s)
  else if 0 < s.last_conversion_time ∧
      env.now - s.last_conversion_time < 3/10 then (false, s)
  else if s.webm_buffer.length < 500 then (false, s)
  else
    match env.encoder (ffmpeg_input s) with
    | EncResult.exitNonzero => (false, s)
    | EncResult.timeout => (false, s)
    | EncResult.output out =>
        if out = [] then (false, s)
        else
          let s1 := { s with wav_bytes := some out }
          let s2 :=
            match env.audioLoad out with
            | some n => { s1 with wav_audio := some n }
            | none => s1
          (true, { s2 with last_conversion_time := env.now })

/-- Models `TurnSession.advance_segment` (`turn_manager.py` lines 191-240): bump
`segment_index`, reset every per-segment field (buffer, WAV bytes, decoded
audio, counters, timers, transcript, finalized), restart the segment clock at
`now`, and keep `webm_header` (source line 235: the header is needed for
future segments).  The archival file copies have no effect on state. -/
def advance_segment (now : ℚ) (s : TurnSession) : TurnSession :=
  { s with segment_index := s.segment_index + 1
           finalized := false
           transcript := none
           chunk_count := 0
           last_duration := 0
           last_conversion_time := 0
           segment_start_time := now
           webm_buffer := []
           wav_bytes := none
           wav_audio := none }

/-- One speech span reported by the VAD (`get_speech_segments_from_audio`):
start and end times in seconds.  `stop` models the dictionary key named
end in the source (a reserved word here). -/
structure Seg where
  start : ℚ
  stop : ℚ
deriving DecidableEq

/-- The result dictionary `push_chunk` returns: `ok`, `finalized`, the
`state` string, and the transcript when present. -/
structure PushResult where
  ok : Bool
  finalized : Bool
  state : String
  transcript : Option String
deriving DecidableEq

/-- Oracles consumed by one `push_chunk` call: the conversion oracles, the
VAD run on an `n`-sample array (an exception is caught and turned into `[]`
at source lines 359-361, so `[]` also covers VAD failure), and the ASR
transcription of the WAV bytes (`transcribe_wav_bytes(...) or ""`). -/
structure PushEnv where
  convEnv : ConvertEnv
  vad : Nat → List Seg
  asr : List Byte → String

/-- The elapsed-time quantity of `turn_manager.py` lines 308-314: time since
the last conversion when one happened, else time since the segment began. -/
def time_since_last (s : TurnSession) (now : ℚ) : ℚ :=
  if 0 < s.last_conversion_time then now - s.last_conversion_time
  else now - s.segment_start_time

/-- The silence-check cadence of `turn_manager.py` lines 316-319: every 4th
chunk (but not chunk 0), or at least 0.5 s elapsed. -/
def should_check (s : TurnSession) (now : ℚ) : Prop :=
  (s.chunk_count % 4 = 0 ∧ 0 < s.chunk_count) ∨ 1/2 ≤ time_since_last s now

instance (s : TurnSession) (now : ℚ) : Decidable (should_check s now) := by
  unfold should_check; infer_instance

/-- Models `TurnManager.push_chunk` (`turn_manager.py` lines 279-427) for a session
that exists in the registry, as a pure transition on the session state.  The
`respond` flag and `min_silence_ms` drive control flow; `vad_threshold` and
`min_speech_ms` only parameterize the VAD oracle and are folded into it. -/
def push_chunk (env : PushEnv) (respond : Bool) (min_silence_ms : ℚ)
    (s : TurnSession) (data : List Byte) : TurnSession × PushResult :=
  if s.processing_active then
    (s, ⟨true, false, ("speaking"), none⟩)
  else
    let s1 := append_chunk s data
    if s1.chunk_count < 2 then (s1, ⟨true, false, ("listening"), none⟩)
    else if ¬ should_check s1 env.convEnv.now then
      (s1, ⟨true, false, ("listening"), none⟩)
    else
      let c := convert_to_wav_memory env.convEnv s1
      if c.1 = false then (c.2, ⟨true, false, ("listening"), none⟩)
      else
        match c.2.wav_audio with
        | none => (c.2, ⟨true, false, ("listening"), none⟩)
        | some nsamples =>
            let duration : ℚ := (nsamples : ℚ) / 16000
            if duration - c.2.last_duration < 1/2 then
              (c.2, ⟨true, false, ("listening"), none⟩)
            else
              let s3 := { c.2 with last_duration := duration }
              match env.vad nsamples with
              | [] => (s3, ⟨true, false, ("listening"), none⟩)
              | g :: gs =>
                  let last_end := gs.foldl (fun a b => max a b.stop) g.stop
                  let silence := max 0 (duration - last_end)
                  if min_silence_ms ≤ silence * 1000 then
                    let s4 := { s3 with processing_active := true }
                    let txt :=
                      match s4.wav_bytes with
                      | none => ""
                      | some wb => if wb = [] then "" else env.asr wb
                    let s5 := { s4 with transcript := some txt,
                                        finalized := true }
                    let s6 :=
                      if respond ∧ txt ≠ "" then s5
                      else { s5 with processing_active := false }
                    (advance_segment env.convEnv.now s6,
                      ⟨true, true, ("speaking"), some txt⟩)
                  else
                    (s3, ⟨true, false,
                      (if duration - last_end < min_silence_ms / 1000 then
                        ("recording") else ("listening")), none⟩)

/-- Models `TurnManager.clear_processing_flag` (`turn_manager.py` lines 269-277)
for an existing session. -/
def clear_processing_flag (s : TurnSession) : TurnSession :=
  { s with processing_active := false }

/-- A `push_chunk` environment whose oracles all report failure; used only
to instantiate universally quantified theorems at a concrete input. -/
def envTrivial : PushEnv :=
  { convEnv := { now := 0, lockHeld := false,
                 encoder := fun _ => EncResult.exitNonzero,
                 audioLoad := fun _ => none }
    vad := fun _ => []
    asr := fun _ => "" }

/-- A session currently in its processing/playback phase. -/
def sessionSpeaking : TurnSession :=
  { initSession 0 with processing_active := true }

/-- C1: while `processing_active` is true, `push_chunk` answers
`ok, not finalized, state speaking` and leaves the session untouched: the
chunk is not appended to the compressed buffer, `chunk_count` does not move,
and — since the equation holds for every oracle environment — neither the
transcoder, nor the VAD, nor the ASR is consulted. -/
theorem spec_C1 (env : PushEnv) (respond : Bool) (min_silence_ms : ℚ)
    (s : TurnSession) (data : List Byte)
    (h : s.processing_active = true) :
    push_chunk env respond min_silence_ms s data =
      (s, ⟨true, false, ("speaking"), none⟩) := by
  simp [push_chunk, h]

/-- Witness for C1 at a concrete session and chunk. -/
theorem spec_C1_witness :
    sessionSpeaking.processing_active = true ∧
    push_chunk envTrivial false 500 sessionSpeaking [1, 2, 3] =
      (sessionSpeaking, ⟨true, false, ("speaking"), none⟩) :=
  ⟨rfl, spec_C1 envTrivial false 500 sessionSpeaking [1, 2, 3] rfl⟩

/-- C4: `advance_segment` bumps `segment_index` by exactly one (so the index
strictly increases), resets every per-segment field — compressed buffer, WAV
bytes, decoded audio, `chunk_count`, `last_duration`, `last_conversion_time`,
the segment start timestamp (restarted at the current time), `transcript`,
`finalized` — and preserves `webm_header`. -/
theorem spec_C4 (now : ℚ) (s : TurnSession) :
    (advance_segment now s).segment_index = s.segment_index + 1 ∧
    s.segment_index < (advance_segment now s).segment_index ∧
    (advance_segment now s).webm_buffer = [] ∧
    (advance_segment now s).wav_bytes = none ∧
    (advance_segment now s).wav_audio = none ∧
    (advance_segment now s).chunk_count = 0 ∧
    (advance_segment now s).last_duration = 0 ∧
    (advance_segment now s).last_conversion_time = 0 ∧
    (advance_segment now s).segment_start_time = now ∧
    (advance_segment now s).transcript = none ∧
    (advance_segment now s).finalized = false ∧
    (advance_segment now s).webm_header = s.webm_header := by
  refine ⟨rfl, ?_, rfl, rfl, rfl, rfl, rfl, rfl, rfl, rfl, rfl, rfl⟩
  exact Nat.lt_succ_self _

/-- The three ways the ffmpeg step itself makes `convert_to_wav_memory`
fail: nonzero exit, the 5 s timeout, or empty stdout. -/
def encFails (r : EncResult) : Prop :=
  r = EncResult.exitNonzero ∨ r = EncResult.timeout ∨ r = EncResult.output []

instance (r : EncResult) : Decidable (encFails r) := by
  unfold encFails; infer_instance

/-- C5: `convert_to_wav_memory` reports failure exactly when the lock is
held, or a successful conversion happened less than 300 ms ago, or the
buffer holds fewer than 500 bytes, or the encoder exits nonzero, times out,
or produces empty output; and the payload handed to the encoder carries the
stored header prepended exactly when the buffer does not already begin with
that header. -/
theorem spec_C5 (env : ConvertEnv) (s : TurnSession) :
    ((convert_to_wav_memory env s).1 = false ↔
      (env.lockHeld = true ∨
       (0 < s.last_conversion_time ∧
         env.now - s.last_conversion_time < 3/10) ∨
       s.webm_buffer.length < 500 ∨
       encFails (env.encoder (ffmpeg_input s)))) ∧
    (∀ h, s.webm_header = some h →
      (if s.webm_buffer.take h.length = h ∧ h.length ≤ s.webm_buffer.length
       then ffmpeg_input s = s.webm_buffer
       else ffmpeg_input s = h ++ s.webm_buffer)) ∧
    (s.webm_header = none → ffmpeg_input s = s.webm_buffer) := by
  refine ⟨?_, ?_, ?_⟩
  · unfold convert_to_wav_memory
    split_ifs with hl ht hs
    · simp [hl]
    · simp [hl, ht]
    · simp [hl, ht, hs]
    · cases henc : env.encoder (ffmpeg_input s) with
      | output out =>
          by_cases ho : out = []
          · simp [henc, ho, encFails, hl, ht, hs]
          · simp [henc, ho, encFails, hl, ht, hs]
      | exitNonzero => simp [henc, encFails, hl, ht, hs]
      | timeout => simp [henc, encFails, hl, ht, hs]
  · intro h hh
    by_cases htake : s.webm_buffer.take h.length = h
    · have hlen : h.length ≤ s.webm_buffer.length := by
        have hl2 : (s.webm_buffer.take h.length).length = h.length := by
          rw [htake]
        rw [List.length_take] at hl2
        omega
      rw [if_pos ⟨htake, hlen⟩]
      simp only [ffmpeg_input, hh]
      rw [if_neg]
      push_neg
      exact ⟨Nat.not_lt.mp (by omega), htake⟩
    · rw [if_neg (fun hc => htake hc.1)]
      simp only [ffmpeg_input, hh]
      rw [if_pos (Or.inr htake)]
  · intro hn
    simp only [ffmpeg_input, hn]

/-- A concrete conversion environment for instantiating `spec_C5`. -/
def convertEnvW : ConvertEnv :=
  { now := 1, lockHeld := false,
    encoder := fun _ => EncResult.output [7],
    audioLoad := fun _ => some 16000 }

/-- A session holding a stored header that its current buffer lacks. -/
def sessionHeaderW : TurnSession :=
  { initSession 0 with webm_header := some [9, 9]
                       webm_buffer := List.replicate 500 0 }

set_option maxRecDepth 10000 in
/-- Witness for C5: on `sessionHeaderW` the conversion succeeds (no failure
cause holds) and the encoder payload is the header prepended to the
buffer. -/
theorem spec_C5_witness :
    (¬ (convert_to_wav_memory convertEnvW sessionHeaderW).1 = false) ∧
    ffmpeg_input sessionHeaderW = [9, 9] ++ sessionHeaderW.webm_buffer := by
  constructor
  · intro hf
    refine absurd ((spec_C5 convertEnvW sessionHeaderW).1.mp hf) ?_
    rintro (h | ⟨h1, h2⟩ | h | h)
    · simp [convertEnvW] at h
    · norm_num [sessionHeaderW, initSession] at h1
    · norm_num [sessionHeaderW, initSession] at h
    · simp [convertEnvW, encFails] at h
  · have h2 := (spec_C5 convertEnvW sessionHeaderW).2.1 [9, 9] rfl
    rw [if_neg (by norm_num [sessionHeaderW, initSession,
      List.take_replicate]; decide)] at h2
    exact h2

/-- The `respond` value that the signaling loop passes to `push_chunk`
(`webrtc.py` line 217 hard-codes `respond=False`). -/
def webrtc_push_chunk_respond : Bool := false

/-- The spawn decision of `webrtc.py` lines 231-233: the loop spawns
`_handle_scripted_chat_response` when the result is finalized, the message
carried `respond`, and the transcript is truthy (present and non-empty). -/
def webrtc_spawn_reply (respond : Bool) (r : PushResult) : Bool :=
  r.finalized && respond &&
    (match r.transcript with
     | some t => decide (t ≠ (""))
     | none => false)

/-- An environment under which the pushed chunk finalizes with transcript
hello: encoder yields one byte of WAV, decode yields 2 s of audio, VAD sees
speech ending at 0.5 s (1.5 s of trailing silence). -/
def envFinalize : PushEnv :=
  { convEnv := { now := 100, lockHeld := false,
                 encoder := fun _ => EncResult.output [1],
                 audioLoad := fun _ => some 32000 }
    vad := fun _ => [⟨0, 1/2⟩]
    asr := fun _ => ("hello") }

/-- A session three chunks and 500 buffered bytes into its segment. -/
def sessionReady : TurnSession :=
  { initSession 0 with chunk_count := 3
                       webm_buffer := List.replicate 500 0 }

/-- The call the signaling loop actually makes on such a chunk. -/
def webrtcFinalizeRun : TurnSession × PushResult :=
  push_chunk envFinalize webrtc_push_chunk_respond 500 sessionReady [0]

set_option maxRecDepth 10000 in
/-- C2 (code evaluated at the failing input): a chunk that finalizes with a
non-empty transcript, pushed exactly as the signaling loop pushes it
(`respond=False` hard-coded), leaves `processing_active = false` at the very
point where the loop — seeing `finalized` and a client-sent `respond=true` —
spawns the reply pipeline.  The flag therefore does not remain true from the
finalization point to the spawn: there is an interval in which it is false,
and it only becomes true again when the spawned task starts. -/
theorem spec_C2 :
    webrtcFinalizeRun.2.finalized = true ∧
    webrtcFinalizeRun.2.transcript = some ("hello") ∧
    webrtc_spawn_reply true webrtcFinalizeRun.2 = true ∧
    webrtcFinalizeRun.1.processing_active = false := by
  norm_num [webrtcFinalizeRun, webrtc_push_chunk_respond, webrtc_spawn_reply,
    push_chunk, append_chunk, convert_to_wav_memory, ffmpeg_input,
    should_check, time_since_last, advance_segment, envFinalize, sessionReady,
    initSession]
  decide

/-- C10: whenever `push_chunk` reaches the non-finalizing branch — the flag
is down, the chunk is at least the second, the cadence says check, the
transcode produced fresh PCM, a decoded array is present, at least 0.5 s of
new audio arrived, the VAD returned a non-empty segment list, and the
trailing silence is below `min_silence_ms` — the returned state is
`recording`: the `listening` alternative of the final ternary cannot fire,
because `silence = max 0 (duration - last_end)` being under the threshold
forces `duration - last_end < min_silence_ms / 1000`. -/
theorem spec_C10 (env : PushEnv) (respond : Bool) (min_silence_ms : ℚ)
    (s : TurnSession) (data : List Byte) (n : ℕ) (g : Seg) (gs : List Seg)
    (h0 : s.processing_active = false)
    (h1 : ¬ (append_chunk s data).chunk_count < 2)
    (h2 : should_check (append_chunk s data) env.convEnv.now)
    (h3 : (convert_to_wav_memory env.convEnv (append_chunk s data)).1 = true)
    (h4 : (convert_to_wav_memory env.convEnv
            (append_chunk s data)).2.wav_audio = some n)
    (h5 : ¬ ((n : ℚ)/16000 -
            (convert_to_wav_memory env.convEnv
              (append_chunk s data)).2.last_duration < 1/2))
    (h6 : env.vad n = g :: gs)
    (h7 : max 0 ((n : ℚ)/16000 -
            gs.foldl (fun a b => max a b.stop) g.stop) * 1000
          < min_silence_ms) :
    (push_chunk env respond min_silence_ms s data).2 =
      ⟨true, false, ("recording"), none⟩ := by
  have hle2 : ¬ (min_silence_ms ≤
      max 0 ((n : ℚ)/16000 -
        gs.foldl (fun a b => max a b.stop) g.stop) * 1000) :=
    not_le.mpr h7
  have hlt : (n : ℚ)/16000 - gs.foldl (fun a b => max a b.stop) g.stop <
      min_silence_ms / 1000 := by
    have h8 : ((n : ℚ)/16000 -
        gs.foldl (fun a b => max a b.stop) g.stop) * 1000 ≤
        max 0 ((n : ℚ)/16000 -
          gs.foldl (fun a b => max a b.stop) g.stop) * 1000 :=
      mul_le_mul_of_nonneg_right (le_max_right _ _) (by norm_num)
    exact (lt_div_iff₀ (by norm_num : (0:ℚ) < 1000)).mpr
      (lt_of_le_of_lt h8 h7)
  have h5i : ¬ ((n : ℚ)/16000 -
      (convert_to_wav_memory env.convEnv
        (append_chunk s data)).2.last_duration < (2 : ℚ)⁻¹) := by
    rwa [one_div] at h5
  simp [push_chunk, h0, h1, h2, h3, h4, h5, h5i, h6, hle2, hlt]

/-- The environment for the C10 witness: 2 s of decoded audio, speech up to
1.9 s, so 0.1 s of trailing silence — under the 500 ms threshold. -/
def envRecording : PushEnv :=
  { convEnv := { now := 100, lockHeld := false,
                 encoder := fun _ => EncResult.output [1],
                 audioLoad := fun _ => some 32000 }
    vad := fun _ => [⟨0, 19/10⟩]
    asr := fun _ => ("") }

set_option maxRecDepth 10000 in
/-- Witness for C10 at a concrete session, chunk and oracle environment. -/
theorem spec_C10_witness :
    max 0 (((32000 : ℕ) : ℚ)/16000 -
      ([] : List Seg).foldl (fun a b => max a b.stop)
        ((⟨0, 19/10⟩ : Seg).stop)) * 1000 < 500 ∧
    (push_chunk envRecording false 500 sessionReady [0]).2 =
      ⟨true, false, ("recording"), none⟩ := by
  have h7 : max 0 (((32000 : ℕ) : ℚ)/16000 -
      ([] : List Seg).foldl (fun a b => max a b.stop)
        ((⟨0, 19/10⟩ : Seg).stop)) * 1000 < 500 := by
    simp only [List.foldl_nil]
    norm_num [max_def]
  refine ⟨h7, spec_C10 envRecording false 500 sessionReady [0] 32000
    ⟨0, 19/10⟩ [] rfl ?_ ?_ ?_ ?_ ?_ rfl h7⟩
  · norm_num [append_chunk, sessionReady, initSession]
  · norm_num [should_check, append_chunk, sessionReady, initSession,
      envRecording]
  · norm_num [convert_to_wav_memory, append_chunk, ffmpeg_input,
      sessionReady, initSession, envRecording]
  · norm_num [convert_to_wav_memory, append_chunk, ffmpeg_input,
      sessionReady, initSession, envRecording]
  · norm_num [convert_to_wav_memory, append_chunk, ffmpeg_input,
      sessionReady, initSession, envRecording]

/-- The Python slice taking the trailing `n` elements of a list. -/
def takeLast {α : Type} (n : ℕ) (l : List α) : List α :=
  l.drop (l.length - n)

/-- The conversation-history effect of one reply-pipeline run
(`_handle_scripted_chat_response`, `webrtc.py` lines 37-63): append the user
message, dispatch the trailing 20 entries to the LLM backend, and append the
assistant reply (bumping nothing here; `turn_number` is separate) when the
reply is non-empty.  Returns (new history, dispatched history). -/
def reply_pipeline_history_update (hist : List ChatMsg)
    (transcript reply : String) : List ChatMsg × List ChatMsg :=
  let hist1 := hist ++ [ChatMsg.mk ("user") transcript]
  let dispatched := takeLast 20 hist1
  let hist2 :=
    if reply ≠ ("") then hist1 ++ [ChatMsg.mk ("assistant") reply] else hist1
  (hist2, dispatched)

/-- The session history after `k` complete turns, each with a non-empty
transcript and a non-empty reply. -/
def historyAfterTurns : ℕ → List ChatMsg
  | 0 => []
  | k+1 => (reply_pipeline_history_update (historyAfterTurns k)
      ("hi") ("yo")).1

/-- Counterexample to C3 as stated: after 11 turns the stored
`conversation_history` holds 22 messages — the code never truncates the
stored list, only the slice it dispatches. -/
theorem spec_C3_counterexample :
    ¬ ((historyAfterTurns 11).length ≤ 20) := by
  decide

/-- C3 (amended): the history dispatched to the LLM is capped at 20
messages, obtained head-first (oldest dropped) from the stored history after
the user message is appended; the stored history itself is unbounded. -/
theorem spec_C3 (hist : List ChatMsg) (transcript reply : String) :
    ((reply_pipeline_history_update hist transcript reply).2).length ≤ 20 ∧
    (reply_pipeline_history_update hist transcript reply).2 =
      (hist ++ [ChatMsg.mk ("user") transcript]).drop
        ((hist ++ [ChatMsg.mk ("user") transcript]).length - 20) := by
  refine ⟨?_, rfl⟩
  simp only [reply_pipeline_history_update, takeLast, List.length_drop]
  omega

/-- The threshold policy of `search_with_threshold` (`app/rag.py` lines
112-127), over the ranked (document, score) list the vector store returned:
keep scores at or under the threshold in distance mode, at or over it
otherwise; when that empties a non-empty result list, fall back to its first
(top-ranked) element. -/
def search_with_threshold {α : Type} [DecidableEq α] (score_mode : String) (threshold : ℚ)
    (results : List (α × ℚ)) : List (α × ℚ) :=
  let kept := results.filter (fun dc =>
    if score_mode = ("distance") then dc.2 ≤ threshold else threshold ≤ dc.2)
  if kept = [] then
    match results with
    | [] => kept
    | r :: _ => [r]
  else kept

/-- C8: `search_with_threshold` keeps exactly the items passing the score
threshold (≥ in similarity mode, ≤ in distance mode), and when the filter
removes everything but the underlying search returned at least one item, it
returns exactly the top-1 result. -/
theorem spec_C8 {α : Type} [DecidableEq α] (score_mode : String) (threshold : ℚ)
    (results : List (α × ℚ)) :
    search_with_threshold score_mode threshold results =
      (if results.filter (fun dc =>
          if score_mode = ("distance") then dc.2 ≤ threshold
          else threshold ≤ dc.2) = []
       then results.take 1
       else results.filter (fun dc =>
          if score_mode = ("distance") then dc.2 ≤ threshold
          else threshold ≤ dc.2)) := by
  unfold search_with_threshold
  by_cases hk : results.filter (fun dc =>
      if score_mode = ("distance") then dc.2 ≤ threshold
      else threshold ≤ dc.2) = []
  · rw [if_pos hk, if_pos hk]
    cases results <;> simp [hk]
  · rw [if_neg hk, if_neg hk]

/-- One LLM attempt as observed by the retry wrapper
(`together_client.py` lines 52-68): either a content string, or an exception
message (the no-choices `RuntimeError` raised inside the `try` is also
caught by the `except`, so it is a `failure` too). -/
inductive LLMAttempt
  | success (content : String)
  | failure (msg : String)
deriving DecidableEq

/-- The retry loop of `call_llm` (`together_client.py` lines 51-91) with the
attempt outcomes as an oracle, recursing on the number of attempts still
allowed.  Returns (result, sleep durations in order, attempts made).  On a
failure with attempts left it sleeps `retry_delay * 2 ^ attempt`; on the
last attempt it re-raises with the wrapped message. -/
def call_llm_go (f : ℕ → LLMAttempt) (retry_delay : ℚ) :
    ℕ → ℕ → Except String String × List ℚ × ℕ
  | 0, _ => (Except.error ("LLM call failed"), [], 0)
  | r+1, attempt =>
      match f attempt with
      | LLMAttempt.success c => (Except.ok c, [], 1)
      | LLMAttempt.failure msg =>
          if r = 0 then
            (Except.error (("LLM call failed after ") ++
              toString (attempt + 1) ++ (" attempts: ") ++ msg), [], 1)
          else
            match call_llm_go f retry_delay r (attempt + 1) with
            | (res, sleeps, k) =>
                (res, (retry_delay * 2 ^ attempt) :: sleeps, k + 1)

/-- Models `call_llm(messages, max_retries, retry_delay)`: `range(max_retries + 1)`
attempts starting at attempt 0. -/
def call_llm (f : ℕ → LLMAttempt) (max_retries : ℕ) (retry_delay : ℚ) :
    Except String String × List ℚ × ℕ :=
  call_llm_go f retry_delay (max_retries + 1) 0

/-- The wrapper `call_llm` as every call site in the repository invokes it: default
`max_retries=2`, `retry_delay=1.0`. -/
def call_llm_default (f : ℕ → LLMAttempt) :
    Except String String × List ℚ × ℕ :=
  call_llm f 2 1

/-- The attempt count never exceeds the allowed number of attempts. -/
theorem call_llm_go_count (f : ℕ → LLMAttempt) (d : ℚ) :
    ∀ r a, (call_llm_go f d r a).2.2 ≤ r := by
  intro r
  induction r with
  | zero => intro a; simp [call_llm_go]
  | succ r ih =>
      intro a
      unfold call_llm_go
      cases f a with
      | success c => simp
      | failure m =>
          by_cases hr : r = 0
          · simp [hr]
          · have := ih (a + 1)
            simp only [hr, if_false]
            exact Nat.succ_le_succ this

/-- C9: with the defaults every call site uses, `call_llm` makes at most 3
attempts in total; any attempt that fails — network/DNS, timeout and other
exceptions alike — is retried while attempts remain, sleeping 1 s before the
second attempt and 2 s before the third (exponential backoff from 1 s); a
success returns its content immediately; and when all three attempts fail
the error surfaces after the last attempt. -/
theorem spec_C9 (f : ℕ → LLMAttempt) :
    (call_llm_default f).2.2 ≤ 3 ∧
    (∀ c, f 0 = LLMAttempt.success c →
      call_llm_default f = (Except.ok c, [], 1)) ∧
    (∀ m0 c, f 0 = LLMAttempt.failure m0 → f 1 = LLMAttempt.success c →
      call_llm_default f = (Except.ok c, [1], 2)) ∧
    (∀ m0 m1 c, f 0 = LLMAttempt.failure m0 → f 1 = LLMAttempt.failure m1 →
      f 2 = LLMAttempt.success c →
      call_llm_default f = (Except.ok c, [1, 2], 3)) ∧
    (∀ m0 m1 m2, f 0 = LLMAttempt.failure m0 → f 1 = LLMAttempt.failure m1 →
      f 2 = LLMAttempt.failure m2 →
      call_llm_default f =
        (Except.error (("LLM call failed after ") ++ toString 3 ++
          (" attempts: ") ++ m2), [1, 2], 3)) := by
  refine ⟨call_llm_go_count f 1 3 0, ?_, ?_, ?_, ?_⟩
  · intro c h0
    simp [call_llm_default, call_llm, call_llm_go, h0]
  · intro m0 c h0 h1
    norm_num [call_llm_default, call_llm, call_llm_go, h0, h1]
  · intro m0 m1 c h0 h1 h2
    norm_num [call_llm_default, call_llm, call_llm_go, h0, h1, h2]
  · intro m0 m1 m2 h0 h1 h2
    norm_num [call_llm_default, call_llm, call_llm_go, h0, h1, h2]

/-- An outcome sequence whose first attempt hits a DNS failure and whose
second succeeds. -/
def llmOutcomeW : ℕ → LLMAttempt
  | 0 => LLMAttempt.failure ("NameResolutionError")
  | _ => LLMAttempt.success ("ok")

/-- Witness for C9: one retryable failure, then success on attempt 2 after a
single 1 s sleep. -/
theorem spec_C9_witness :
    llmOutcomeW 0 = LLMAttempt.failure ("NameResolutionError") ∧
    llmOutcomeW 1 = LLMAttempt.success ("ok") ∧
    call_llm_default llmOutcomeW = (Except.ok ("ok"), [1], 2) :=
  ⟨rfl, rfl,
    (spec_C9 llmOutcomeW).2.2.1 ("NameResolutionError") ("ok") rfl rfl⟩

/-- Python whitespace for `str.strip` and the regex class `\s`, restricted
to its ASCII members (space, tab, newline, carriage return, vertical tab,
form feed). -/
def pyIsSpace (c : Char) : Bool :=
  c.toNat == 32 || c.toNat == 9 || c.toNat == 10 || c.toNat == 13 ||
    c.toNat == 11 || c.toNat == 12

/-- Python `str.strip()`: drop leading and trailing whitespace. -/
def pystrip (l : List Char) : List Char :=
  (l.dropWhile pyIsSpace).rdropWhile pyIsSpace

/-- The literal `<think>` opening the removed span. -/
def thinkOpen : List Char := ("<think>").toList

/-- The literal `</think>` closing the removed span. -/
def thinkClose : List Char := ("</think>").toList

/-- Match a literal at the front of the input, returning the rest. -/
def dropLit : List Char → List Char → Option (List Char)
  | [], l => some l
  | _ :: _, [] => none
  | p :: ps, c :: cs => if c = p then dropLit ps cs else none

/-- Scan for the first occurrence of `</think>`, returning the suffix after
it: this is where the lazy `[\s\S]*?` stops. -/
def findClose : List Char → Option (List Char)
  | [] => none
  | l@(_ :: rest) =>
      match dropLit thinkClose l with
      | some r => some r
      | none => findClose rest

/-- One fuelled pass of `re.sub(r"<think>[\s\S]*?</think>\s*", "", text)`:
at each position, if `<think>` matches here and a `</think>` occurs later,
remove through the close literal plus the greedy trailing whitespace and
continue after the match; otherwise keep the character and move on.  Each
step shortens the list, so `length` fuel always suffices. -/
def subThinkF : ℕ → List Char → List Char
  | 0, l => l
  | _+1, [] => []
  | fuel+1, l@(c :: rest) =>
      match dropLit thinkOpen l with
      | some afterOpen =>
          match findClose afterOpen with
          | some afterClose => subThinkF fuel (afterClose.dropWhile pyIsSpace)
          | none => c :: subThinkF fuel rest
      | none => c :: subThinkF fuel rest

/-- The `re.sub` call of `sanitize_reply` (`app/script.py` line 7). -/
def re_sub_think (l : List Char) : List Char :=
  subThinkF l.length l

/-- Models `sanitize_reply` (`app/script.py` lines 6-8): remove every
`<think>...</think>` span (with trailing whitespace) in one pass, then
strip. -/
def sanitize_reply (l : List Char) : List Char :=
  pystrip (re_sub_think l)

/-- Whether the `<think>[\s\S]*?</think>` pattern matches anywhere. -/
def hasThinkMatch : List Char → Bool
  | [] => false
  | l@(_ :: rest) =>
      (match dropLit thinkOpen l with
       | some afterOpen => (findClose afterOpen).isSome
       | none => false) || hasThinkMatch rest

/-- When the pattern matches nowhere, the substitution is the identity at
any fuel. -/
theorem subThinkF_of_no_match :
    ∀ (l : List Char), hasThinkMatch l = false →
      ∀ fuel, subThinkF fuel l = l := by
  intro l
  induction l with
  | nil => intro _ fuel; cases fuel <;> rfl
  | cons c rest ih =>
      intro h fuel
      cases fuel with
      | zero => rfl
      | succ fuel =>
          have h2 : hasThinkMatch rest = false := by
            simp only [hasThinkMatch, Bool.or_eq_false_iff] at h
            exact h.2
          cases hdrop : dropLit thinkOpen (c :: rest) with
          | none =>
              simp only [subThinkF, hdrop]
              rw [ih h2 fuel]
          | some afterOpen =>
              cases hfind : findClose afterOpen with
              | none =>
                  simp only [subThinkF, hdrop, hfind]
                  rw [ih h2 fuel]
              | some r =>
                  exfalso
                  simp only [hasThinkMatch, hdrop, hfind,
                    Option.isSome_some, Bool.true_or] at h
                  exact Bool.true_eq_false.mp h

/-- Stripping is idempotent: the first strip leaves no leading or trailing
whitespace for the second to remove. -/
theorem pystrip_idem (l : List Char) : pystrip (pystrip l) = pystrip l := by
  have h1 : List.dropWhile pyIsSpace
      ((List.dropWhile pyIsSpace l).rdropWhile pyIsSpace) =
      (List.dropWhile pyIsSpace l).rdropWhile pyIsSpace := by
    rw [List.dropWhile_eq_self_iff]
    intro hl
    have hpre := List.rdropWhile_prefix pyIsSpace (List.dropWhile pyIsSpace l)
    have hx : 0 < (List.dropWhile pyIsSpace l).length :=
      lt_of_lt_of_le hl hpre.length_le
    have hz := List.dropWhile_get_zero_not pyIsSpace l hx
    have hg : ((List.dropWhile pyIsSpace l).rdropWhile pyIsSpace).get
        ⟨0, hl⟩ = (List.dropWhile pyIsSpace l).get ⟨0, hx⟩ := by
      simpa using hpre.getElem hl
    rw [hg]
    exact hz
  show (List.dropWhile pyIsSpace
      ((List.dropWhile pyIsSpace l).rdropWhile pyIsSpace)).rdropWhile
        pyIsSpace = _
  rw [h1, List.rdropWhile_idempotent]
  rfl

/-- The input on which a single-pass removal exposes a new think-block. -/
def thinkNestedInput : List Char :=
  ("<thi<think>a</think>nk>b</think>").toList

/-- Counterexample to C7 as stated: removing the inner span of
`thinkNestedInput` splices the surrounding text into a fresh
`<think>b</think>`, which only a second pass would remove — so
`sanitize_reply` applied twice differs from applying it once. -/
theorem spec_C7_counterexample :
    sanitize_reply (sanitize_reply thinkNestedInput) ≠
      sanitize_reply thinkNestedInput := by
  decide

/-- C7 (amended): `sanitize_reply` is idempotent on every input whose
sanitized form no longer contains a `<think>...</think>` match; a second
application can differ only when the single-pass removal itself exposes a
new match. -/
theorem spec_C7 (x : List Char)
    (h : hasThinkMatch (sanitize_reply x) = false) :
    sanitize_reply (sanitize_reply x) = sanitize_reply x := by
  have hsub : re_sub_think (sanitize_reply x) = sanitize_reply x :=
    subThinkF_of_no_match _ h _
  calc sanitize_reply (sanitize_reply x)
      = pystrip (re_sub_think (sanitize_reply x)) := rfl
    _ = pystrip (sanitize_reply x) := by rw [hsub]
    _ = pystrip (pystrip (re_sub_think x)) := rfl
    _ = pystrip (re_sub_think x) := pystrip_idem _
    _ = sanitize_reply x := rfl

/-- Witness for C7 (amended) on a plain reply. -/
theorem spec_C7_witness :
    hasThinkMatch (sanitize_reply (" hello ").toList) = false ∧
    sanitize_reply (sanitize_reply (" hello ").toList) =
      sanitize_reply (" hello ").toList :=
  ⟨by decide, spec_C7 ((" hello ").toList) (by decide)⟩

/-- The single-quote character of the tag syntax. -/
def quoteChar : Char := Char.ofNat 39

/-- The opening curly brace of the JSON group. -/
def openBrace : Char := Char.ofNat 123

/-- The closing curly brace of the JSON group. -/
def closeBrace : Char := Char.ofNat 125

/-- The regex class `[A-Z]` of the method group. -/
def isUpperAZ (c : Char) : Bool :=
  decide (65 ≤ c.toNat) && decide (c.toNat ≤ 90)

/-- A decimal digit. -/
def isDigitChar (c : Char) : Bool :=
  decide (48 ≤ c.toNat) && decide (c.toNat ≤ 57)

/-- A JSON value as produced by `json.loads`: Python dicts with string keys
become `obj`, lists become `arr`, ints become `num`. -/
inductive JValue where
  | null
  | bool (b : Bool)
  | num (n : ℤ)
  | str (s : String)
  | arr (xs : List JValue)
  | obj (fields : List (String × JValue))

/-- The result dictionary of `parse_api_call_tag`. -/
structure ApiCall where
  method : String
  path : String
  payload : JValue

/-- The literal head of the tag pattern. -/
def litAPI : List Char := ("[API_CALL:").toList

/-- The lazy JSON group: after the opening brace, accumulate characters
until the first closing brace that is followed by optional whitespace and
the final bracket — exactly where the backtracking `\x7b[\s\S]*?\x7d\s*\]`
first succeeds.  Returns the content between the braces and the input after
the bracket. -/
def scanJson (acc : List Char) : List Char → Option (List Char × List Char)
  | [] => none
  | c :: rest =>
      if c = closeBrace then
        match rest.dropWhile pyIsSpace with
        | b :: r2 =>
            if b = ']' then some (acc.reverse, r2)
            else scanJson (c :: acc) rest
        | [] => scanJson (c :: acc) rest
      else scanJson (c :: acc) rest

/-- Continue the match after the closing quote of the method/path group:
skip whitespace, then either the optional `, \x7b...\x7d` group followed by
the bracket, or the bracket directly.  A comma whose JSON group does not
close properly fails the whole match (backtracking into the quoted part
cannot move the comma). -/
def matchAfterQuote (ms ps : List Char) (r7 : List Char) :
    Option (List Char × List Char × Option (List Char)) :=
  match r7.dropWhile pyIsSpace with
  | [] => none
  | c :: r9 =>
      if c = ',' then
        match r9.dropWhile pyIsSpace with
        | b :: r11 =>
            if b = openBrace then
              match scanJson [] r11 with
              | some (content, _) =>
                  some (ms, ps, some (openBrace :: content ++ [closeBrace]))
              | none => none
            else none
        | [] => none
      else if c = ']' then some (ms, ps, none)
      else none

/-- Match the full pattern
`\[API_CALL:\s*\x27([A-Z]+)\s+([^\x27]+)\x27\s*(?:,\s*(\x7b[\s\S]*?\x7d))?\s*\]`
anchored at the head of the input, with Python backtracking semantics:
greedy `[A-Z]+` and `\s+` (their classes are disjoint from what follows, so
maximal munch is exact), greedy `[^\x27]+` up to the quote; when the
character after the maximal whitespace run is already the quote, the engine
backtracks one whitespace character into the path group (possible only when
the run has at least two). -/
def matchApiCallAt (l : List Char) :
    Option (List Char × List Char × Option (List Char)) :=
  match dropLit litAPI l with
  | none => none
  | some r1 =>
      match r1.dropWhile pyIsSpace with
      | [] => none
      | q :: r3 =>
          if q = quoteChar then
            let ms := r3.takeWhile isUpperAZ
            let r4 := r3.dropWhile isUpperAZ
            if ms = [] then none
            else
              let wsrun := r4.takeWhile pyIsSpace
              let r5 := r4.dropWhile pyIsSpace
              if wsrun = [] then none
              else
                let ps := r5.takeWhile (fun c => decide (c ≠ quoteChar))
                let r6 := r5.dropWhile (fun c => decide (c ≠ quoteChar))
                if ps = [] then
                  match r5 with
                  | [] => none
                  | _ :: r7 =>
                      if 2 ≤ wsrun.length then
                        matchAfterQuote ms [wsrun.getLast!] r7
                      else none
                else
                  match r6 with
                  | [] => none
                  | _ :: r7 => matchAfterQuote ms ps r7
          else none

/-- Models `re.search`: the leftmost position where the pattern matches. -/
def searchApiCall : List Char → Option (List Char × List Char × Option (List Char))
  | [] => none
  | l@(_ :: rest) =>
      match matchApiCallAt l with
      | some r => some r
      | none => searchApiCall rest

/-- Models `parse_api_call_tag` (`app/script.py` lines 16-28), with `json.loads`
(a Python standard-library routine, external to the repository) as an
oracle returning `none` when it raises: on a match, strip the method and
path groups; the payload defaults to the empty object and takes the parsed
JSON only when the group is present and parses. -/
def parse_api_call_tag (jsonLoads : String → Option JValue)
    (text : List Char) : Option ApiCall :=
  match searchApiCall text with
  | none => none
  | some (m, p, g3) =>
      let payload :=
        match g3 with
        | some j =>
            match jsonLoads (String.mk j) with
            | some v => v
            | none => JValue.obj []
        | none => JValue.obj []
      some ⟨String.mk (pystrip m), String.mk (pystrip p), payload⟩

/-- The literal input of the claim. -/
def apiTagExample : List Char :=
  ("[API_CALL: \x27POST /x\x27, \x7b\"a\":1\x7d]").toList

/-- The JSON group the pattern extracts from `apiTagExample`. -/
def jsonA1Chars : List Char := ("\x7b\"a\":1\x7d").toList

/-- C6: on the literal input of the claim, `parse_api_call_tag` returns method
POST, path /x and — provided `json.loads` parses the extracted group to the
object with field a = 1 — that object as payload; and for every input whose
extracted JSON group fails to parse, the returned payload is the empty
object. -/
theorem spec_C6 (jl : String → Option JValue) :
    (jl (String.mk jsonA1Chars) =
        some (JValue.obj [(("a"), JValue.num 1)]) →
      parse_api_call_tag jl apiTagExample =
        some ⟨("POST"), ("/x"), JValue.obj [(("a"), JValue.num 1)]⟩) ∧
    (∀ (text m p j : List Char),
      searchApiCall text = some (m, p, some j) →
      jl (String.mk j) = none →
      parse_api_call_tag jl text =
        some ⟨String.mk (pystrip m), String.mk (pystrip p),
              JValue.obj []⟩) := by
  constructor
  · intro hj
    have hs : searchApiCall apiTagExample =
        some (("POST").toList, ("/x").toList, some jsonA1Chars) := by rfl
    simp only [parse_api_call_tag, hs, hj]
    rfl
  · intro text m p j hs hj
    simp only [parse_api_call_tag, hs, hj]

/-- Digits to a natural number. -/
def digitsToNat (ds : List Char) : ℕ :=
  ds.foldl (fun a c => a * 10 + (c.toNat - 48)) 0

/-- A restricted model of `json.loads`, sufficient to instantiate the oracle
of `spec_C6`: it accepts exactly a flat object with one double-quoted key
and one unsigned integer value, and rejects everything else (as the real
`json.loads` also rejects such inputs). -/
def jsonLoadsFlat (s : String) : Option JValue :=
  match s.toList with
  | b :: rest =>
      if b = openBrace then
        match rest.dropWhile pyIsSpace with
        | q1 :: r1 =>
            if q1 = '"' then
              let key := r1.takeWhile (fun c => decide (c ≠ '"'))
              match r1.dropWhile (fun c => decide (c ≠ '"')) with
              | _ :: r2 =>
                  match r2.dropWhile pyIsSpace with
                  | colon :: r3 =>
                      if colon = ':' then
                        let ds := (r3.dropWhile pyIsSpace).takeWhile
                          isDigitChar
                        let r4 := (r3.dropWhile pyIsSpace).dropWhile
                          isDigitChar
                        if ds = [] then none
                        else
                          match r4.dropWhile pyIsSpace with
                          | [c] =>
                              if c = closeBrace then
                                some (JValue.obj
                                  [(String.mk key,
                                    JValue.num (digitsToNat ds))])
                              else none
                          | _ => none
                      else none
                  | [] => none
              | [] => none
            else none
        | [] => none
      else none
  | [] => none

/-- A tag whose bracketed JSON part is malformed. -/
def apiTagBadJson : List Char :=
  ("[API_CALL: \x27GET /y\x27, \x7bbad\x7d]").toList

/-- The malformed group the pattern extracts from `apiTagBadJson`. -/
def badJsonChars : List Char := ("\x7bbad\x7d").toList

/-- Witness for C6: with the flat `json.loads` model, the literal input of
the claim yields POST, /x and the parsed object, and the malformed-JSON tag
yields the empty-object payload. -/
theorem spec_C6_witness :
    parse_api_call_tag jsonLoadsFlat apiTagExample =
      some ⟨("POST"), ("/x"), JValue.obj [(("a"), JValue.num 1)]⟩ ∧
    searchApiCall apiTagBadJson =
      some (("GET").toList, ("/y").toList, some badJsonChars) ∧
    jsonLoadsFlat (String.mk badJsonChars) = none ∧
    parse_api_call_tag jsonLoadsFlat apiTagBadJson =
      some ⟨("GET"), ("/y"), JValue.obj []⟩ := by
  refine ⟨(spec_C6 jsonLoadsFlat).1 (by rfl), rfl, rfl, ?_⟩
  have h := (spec_C6 jsonLoadsFlat).2 apiTagBadJson (("GET").toList)
    (("/y").toList) badJsonChars rfl rfl
  rw [h]
  rfl
